import Mathlib

/-!
Verification of the DataGenFlow block-execution engine.

This file gives a shallow embedding of the core of the repository:

* `lib/workflow.py` — the `Pipeline` class: block initialization
  (`_initialize_blocks`), output validation (`_validate_output`) and the
  accumulated-state execution loop (`execute`);
* `lib/errors.py` — the error taxonomy (`BlockNotFoundError`,
  `BlockExecutionError`, `ValidationError`, each carrying a `detail` dict);
* `lib/blocks/base.py` — `BaseBlock.get_schema`;
* `lib/blocks/config.py` — `BlockConfigSchema.get_config_schema` and
  `BlockConfigSchema._get_property_def`.

Python dictionaries over string keys are embedded as association lists
`Dict V := List (String × V)` (values are opaque: the engine and the schema
deriver never inspect them), with insertion-order semantics matching
CPython: assigning to an existing key keeps its position, assigning a fresh
key appends.  `dict.update` is a left fold of assignments, and `dict.copy`
is the identity on the immutable embedding (the engine's `.copy()` calls at
`workflow.py` lines 62, 91 and 109 are what make each snapshot independent;
in the embedding every value is already independent).
-/

namespace DataGenFlow

/-- A Python `dict[str, Any]`: an insertion-ordered association list.
Dictionaries built by Python can never hold a duplicate key, so the
operations below are written for (and the well-formedness lemmas assume)
at most one entry per key. -/
abbrev Dict (V : Type) := List (String × V)

namespace Dict

variable {V : Type}

/-- `d[k]` / `d.get(k)`: the value stored at key `k`. -/
def get : Dict V → String → Option V
  | [], _ => none
  | p :: rest, k => if p.1 = k then some p.2 else get rest k

/-- `list(d.keys())` in insertion order. -/
def keys (d : Dict V) : List String :=
  d.map (·.1)

/-- `d[k] = v`: overwrite in place if the key is present, else append. -/
def insert : Dict V → String → V → Dict V
  | [], k, v => [(k, v)]
  | p :: rest, k, v => if p.1 = k then (k, v) :: rest else p :: insert rest k v

/-- `d.update(r)`: assign every entry of `r` into `d`, in order. -/
def update (d : Dict V) (r : Dict V) : Dict V :=
  r.foldl (fun a p => insert a p.1 p.2) d

/-- `d.copy()`: on the immutable embedding a copy is the value itself. -/
def copy (d : Dict V) : Dict V := d

@[simp] theorem copy_eq (d : Dict V) : copy d = d := rfl

@[simp] theorem get_nil (k : String) : get ([] : Dict V) k = none := rfl

@[simp] theorem keys_nil : keys ([] : Dict V) = [] := rfl

@[simp] theorem keys_cons (p : String × V) (rest : Dict V) :
    keys (p :: rest) = p.1 :: keys rest := rfl

theorem mem_keys {d : Dict V} {k : String} :
    k ∈ keys d ↔ ∃ v, (k, v) ∈ d := by
  induction d with
  | nil => simp
  | cons p rest ih =>
    simp only [keys_cons, List.mem_cons, ih, Prod.ext_iff]
    constructor
    · rintro (rfl | ⟨v, hv⟩)
      · exact ⟨p.2, Or.inl ⟨rfl, rfl⟩⟩
      · exact ⟨v, Or.inr hv⟩
    · rintro ⟨v, (⟨h1, h2⟩ | hm)⟩
      · exact Or.inl h1
      · exact Or.inr ⟨v, hm⟩

theorem get_eq_none_iff_not_mem {d : Dict V} {k : String} :
    get d k = none ↔ k ∉ keys d := by
  induction d with
  | nil => simp
  | cons p rest ih =>
    by_cases h : p.1 = k
    · simp [get, h]
    · simpa [get, h, Ne.symm h] using ih

theorem get_isSome_of_mem {d : Dict V} {k : String} (h : k ∈ keys d) :
    (get d k).isSome := by
  cases he : get d k with
  | none => exact absurd (get_eq_none_iff_not_mem.mp he) (by simp [h])
  | some v => simp

theorem keys_insert (d : Dict V) (k : String) (v : V) :
    keys (insert d k v) = if k ∈ keys d then keys d else keys d ++ [k] := by
  induction d with
  | nil => simp [insert]
  | cons p rest ih =>
    by_cases h : p.1 = k
    · simp [insert, h]
    · by_cases hm : k ∈ keys rest
      · simp [insert, h, ih, hm, Ne.symm h]
      · simp [insert, h, ih, hm, Ne.symm h]

theorem mem_keys_insert {d : Dict V} {k k' : String} {v : V} :
    k' ∈ keys (insert d k v) ↔ k' = k ∨ k' ∈ keys d := by
  rw [keys_insert]
  by_cases h : k ∈ keys d
  · simp only [h, if_true]
    constructor
    · exact Or.inr
    · rintro (rfl | hm)
      · exact h
      · exact hm
  · simp only [h, if_false, List.mem_append, List.mem_singleton]
    tauto

theorem get_insert_self (d : Dict V) (k : String) (v : V) :
    get (insert d k v) k = some v := by
  induction d with
  | nil => simp [insert, get]
  | cons p rest ih =>
    by_cases h : p.1 = k
    · simp [insert, h, get]
    · simp [insert, h, get, ih]

theorem get_insert_ne (d : Dict V) (k k' : String) (v : V) (hne : k' ≠ k) :
    get (insert d k v) k' = get d k' := by
  induction d with
  | nil => simp [insert, get, Ne.symm hne]
  | cons p rest ih =>
    by_cases h : p.1 = k
    · subst h
      simp [insert, get, Ne.symm hne]
    · by_cases h' : p.1 = k'
      · simp [insert, h, get, h', hne]
      · simp [insert, h, get, h', ih]

theorem mem_keys_update {d r : Dict V} {k : String} :
    k ∈ keys (update d r) ↔ k ∈ keys d ∨ k ∈ keys r := by
  induction r generalizing d with
  | nil => simp [update]
  | cons p rest ih =>
    have hstep : update d (p :: rest) = update (insert d p.1 p.2) rest := rfl
    rw [hstep, ih, mem_keys_insert]
    simp only [keys_cons, List.mem_cons]
    tauto

theorem get_update_of_not_mem (d r : Dict V) (k : String) (h : k ∉ keys r) :
    get (update d r) k = get d k := by
  induction r generalizing d with
  | nil => rfl
  | cons p rest ih =>
    have hne : k ≠ p.1 := fun he => h (by simp [he])
    have hk : k ∉ keys rest := fun hm => h (by simp [hm])
    have hstep : update d (p :: rest) = update (insert d p.1 p.2) rest := rfl
    rw [hstep, ih _ hk, get_insert_ne _ _ _ _ hne]

theorem get_update_of_mem (d r : Dict V) (k : String)
    (hnd : (keys r).Nodup) (h : k ∈ keys r) :
    get (update d r) k = get r k := by
  induction r generalizing d with
  | nil => cases h
  | cons p rest ih =>
    have hstep : update d (p :: rest) = update (insert d p.1 p.2) rest := rfl
    have hnd' : (keys rest).Nodup := (List.nodup_cons.mp (by simpa using hnd)).2
    by_cases hk : k = p.1
    · have hnk : k ∉ keys rest := by
        subst hk
        exact (List.nodup_cons.mp (by simpa using hnd)).1
      rw [hstep, get_update_of_not_mem _ _ _ hnk, hk, get_insert_self]
      simp [get]
    · have hkr : k ∈ keys rest := by
        rcases List.mem_cons.mp (by simpa using h) with h1 | h2
        · exact absurd h1 hk
        · exact h2
      rw [hstep, ih _ hnd']
      · simp [get, Ne.symm hk]
      · exact hkr

end Dict

/-! ## Error taxonomy (`lib/errors.py`)

Each engine error is a `PipelineError` subclass carrying a `message` and a
`detail` dict.  The detail dicts are built at exactly three sites in the
source (`workflow.py` lines 29, 46-51, 122-127), each with a fixed key set,
so they are embedded as structures; `PipelineError.detailKeys` below
recovers the literal key list of each detail dict. -/

/-- Detail dict of `BlockNotFoundError` (`workflow.py` line 29). -/
structure NotFoundDetail where
  block_type : String
  available_blocks : List String
deriving DecidableEq, Repr

/-- Detail dict of `ValidationError` (`workflow.py` lines 46-51).  The
source stores `list(declared)`, `list(actual)` and `list(extra)` of Python
sets whose iteration order is unspecified; the embedding fixes the
canonical order: first occurrences in declaration order for `declared`,
insertion order of the result dict for `actual`, and `actual` order for
`extra`. -/
structure ValDetail where
  block_type : String
  declared_outputs : List String
  actual_outputs : List String
  extra_fields : List String
deriving DecidableEq, Repr

/-- Detail dict of `BlockExecutionError` (`workflow.py` lines 122-127). -/
structure ExecDetail (V : Type) where
  block_type : String
  step : Nat
  error : String
  input : Dict V
deriving DecidableEq, Repr

/-- The three `PipelineError` subclasses of `lib/errors.py`. -/
inductive PipelineError (V : Type) where
  | blockNotFound (message : String) (detail : NotFoundDetail)
  | validation (message : String) (detail : ValDetail)
  | blockExecution (message : String) (detail : ExecDetail V)
deriving DecidableEq, Repr

/-- The literal key list of the `detail` dict at each of the three error
construction sites in `workflow.py`. -/
def PipelineError.detailKeys {V : Type} : PipelineError V → List String
  | .blockNotFound _ _ => ["block_type", "available_blocks"]
  | .validation _ _ => ["block_type", "declared_outputs", "actual_outputs", "extra_fields"]
  | .blockExecution _ _ => ["block_type", "step", "error", "input"]

/-! ## Blocks and pipeline (`lib/workflow.py`) -/

/-- What a block's `execute` coroutine can raise: the engine's own
`ValidationError` (re-raised as-is by the `except ValidationError` arm at
`workflow.py` line 113) or any other `Exception` carrying its `str(e)`
message (wrapped by the `except Exception` arm at line 117). -/
inductive PyExc (V : Type) where
  | validationError (message : String) (detail : ValDetail)
  | exc (message : String)

/-- A live block instance, as the engine sees it: its class name
(`block.__class__.__name__`), its declared `outputs` list, and its
`execute` behaviour.  Per the block contract (`lib/blocks/base.py`), the
result is a pure function of the passed context. -/
structure Block (V : Type) where
  name : String
  outputs : List String
  run : Dict V → Except (PyExc V) (Dict V)

/-- One entry of a pipeline run's `blocks` list:
`{"type": ..., "config": ...}`. -/
structure BlockDef (V : Type) where
  type : String
  config : Dict V

/-- A registered block class: instantiation from a config dict
(`block_class(**block_config)`, `workflow.py` line 32). -/
def BlockClass (V : Type) := Dict V → Block V

/-- `registry._blocks`: the mapping from type name to block class. -/
def Registry (V : Type) := Dict (BlockClass V)

/-- A constructed pipeline: name, raw block definitions, and the resolved
block instances (`self._block_instances`). -/
structure Pipeline (V : Type) where
  name : String
  blocks : List (BlockDef V)
  blockInstances : List (Block V)

/-- One trace entry (`workflow.py` lines 104-112): block class name, the
context snapshot fed to the block, the raw result, and the post-merge
snapshot.  The `execution_time` field (wall-clock `time.time()` deltas)
is not embedded. -/
structure TraceEntry (V : Type) where
  block_type : String
  input : Dict V
  output : Dict V
  accumulated_state : Dict V
deriving DecidableEq, Repr

/-- `Pipeline._validate_output` (`workflow.py` lines 38-52): check that
the returned dict's keys are a subset of the block's declared `outputs`;
on violation produce a `ValidationError` whose detail carries the block
type, declared vs. actual output sets, and the extra keys.  The message's
rendering of the Python set `{extra}` is embedded as a comma-separated
list. -/
def validateOutput {V : Type} (block : Block V) (result : Dict V) :
    Option (PipelineError V) :=
  let declared := block.outputs.dedup
  let actual := Dict.keys result
  if ∀ k ∈ actual, k ∈ declared then none
  else
    let extra := actual.filter (fun k => k ∉ declared)
    some (.validation
      ("Block '" ++ block.name ++ "' returned undeclared fields: "
        ++ String.intercalate ", " extra)
      { block_type := block.name, declared_outputs := declared,
        actual_outputs := actual, extra_fields := extra })

/-- The body of the `for i, block in enumerate(self._block_instances)`
loop of `Pipeline.execute` (`workflow.py` lines 69-128), written as
recursion over the remaining blocks; `i` is the 0-based index of the next
block.  Per-entry `execution_time` (wall clock) and the progress-sink
side channel (`job_queue`/`storage` updates, lines 76-87) are outside the
data flow and are not embedded; the uuid `trace_id` is likewise omitted. -/
def executeAux {V : Type} :
    List (Block V) → Nat → Dict V →
      Except (PipelineError V) (Dict V × List (TraceEntry V))
  | [], _, acc => .ok (acc, [])
  | b :: rest, i, acc =>
    let blockInput := Dict.copy acc
    match b.run acc with
    | .error (.validationError m d) => .error (.validation m d)
    | .error (.exc m) =>
        .error (.blockExecution
          ("Block '" ++ b.name ++ "' failed at step " ++ toString (i + 1) ++ ": " ++ m)
          { block_type := b.name, step := i + 1, error := m, input := blockInput })
    | .ok result =>
      match validateOutput b result with
      | some e => .error e
      | none =>
        let acc' := Dict.update acc result
        match executeAux rest (i + 1) acc' with
        | .error e => .error e
        | .ok (finalData, tr) =>
            .ok (finalData,
              { block_type := b.name, input := blockInput, output := result,
                accumulated_state := Dict.copy acc' } :: tr)

/-- `Pipeline.execute` (`workflow.py` lines 54-131): copy the caller's
initial data, run the blocks in order, and on success return the final
accumulated data together with the trace. -/
def Pipeline.execute {V : Type} (p : Pipeline V) (initialData : Dict V) :
    Except (PipelineError V) (Dict V × List (TraceEntry V)) :=
  executeAux p.blockInstances 0 (Dict.copy initialData)

/-- `Pipeline._initialize_blocks` (`workflow.py` lines 19-32): resolve
every block definition through the registry; the first unresolvable type
aborts with `BlockNotFoundError` carrying the requested type and
`list(registry._blocks.keys())`. -/
def initializeBlocks {V : Type} (reg : Registry V) :
    List (BlockDef V) → Except (PipelineError V) (List (Block V))
  | [] => .ok []
  | d :: rest =>
    match Dict.get reg d.type with
    | none =>
        .error (.blockNotFound ("Block '" ++ d.type ++ "' not found")
          { block_type := d.type, available_blocks := Dict.keys reg })
    | some blockClass =>
      match initializeBlocks reg rest with
      | .error e => .error e
      | .ok instances => .ok (blockClass d.config :: instances)

/-- `Pipeline.__init__` / `Pipeline.load_from_dict` (`workflow.py` lines
13-17 and 34-36): construction resolves all blocks eagerly and is
all-or-nothing — an unresolvable type yields the error and no `Pipeline`
value. -/
def Pipeline.load {V : Type} (reg : Registry V) (name : String)
    (blocks : List (BlockDef V)) : Except (PipelineError V) (Pipeline V) :=
  (initializeBlocks reg blocks).map (fun instances => ⟨name, blocks, instances⟩)

/-! ## Execution-loop lemmas -/

section ExecLemmas

variable {V : Type}

/-- The shape a successful run's trace has, by construction of the loop:
each entry's `input` is the context before its block, its
`accumulated_state` is that context merged with its `output`, and states
chain from one entry to the next down to the final context. -/
def TraceChain (acc : Dict V) : List (TraceEntry V) → Dict V → Prop
  | [], finalData => finalData = acc
  | e :: rest, finalData =>
      e.input = acc ∧ e.accumulated_state = Dict.update acc e.output ∧
        TraceChain e.accumulated_state rest finalData

theorem executeAux_nil (i : Nat) (acc : Dict V) :
    executeAux ([] : List (Block V)) i acc = .ok (acc, []) := rfl

theorem executeAux_ok_chain :
    ∀ (bs : List (Block V)) (i : Nat) (acc finalData : Dict V)
      (tr : List (TraceEntry V)),
      executeAux bs i acc = .ok (finalData, tr) → TraceChain acc tr finalData := by
  intro bs
  induction bs with
  | nil =>
    intro i acc finalData tr h
    simp only [executeAux, Except.ok.injEq, Prod.mk.injEq] at h
    obtain ⟨rfl, rfl⟩ := h
    rfl
  | cons b rest ih =>
    intro i acc finalData tr h
    simp only [executeAux] at h
    cases hrun : b.run acc with
    | error e => cases e <;> simp [hrun] at h
    | ok result =>
      simp only [hrun] at h
      cases hv : validateOutput b result with
      | some e => simp [hv] at h
      | none =>
        simp only [hv] at h
        cases hrec : executeAux rest (i + 1) (Dict.update acc result) with
        | error e => simp [hrec] at h
        | ok out =>
          obtain ⟨finalData', tr'⟩ := out
          simp only [hrec, Except.ok.injEq, Prod.mk.injEq] at h
          obtain ⟨rfl, rfl⟩ := h
          exact ⟨rfl, rfl, ih _ _ _ _ hrec⟩

theorem executeAux_ok_length :
    ∀ (bs : List (Block V)) (i : Nat) (acc finalData : Dict V)
      (tr : List (TraceEntry V)),
      executeAux bs i acc = .ok (finalData, tr) →
        tr.length = bs.length ∧ tr.map (·.block_type) = bs.map (·.name) := by
  intro bs
  induction bs with
  | nil =>
    intro i acc finalData tr h
    simp only [executeAux, Except.ok.injEq, Prod.mk.injEq] at h
    obtain ⟨rfl, rfl⟩ := h
    simp
  | cons b rest ih =>
    intro i acc finalData tr h
    simp only [executeAux] at h
    cases hrun : b.run acc with
    | error e => cases e <;> simp [hrun] at h
    | ok result =>
      simp only [hrun] at h
      cases hv : validateOutput b result with
      | some e => simp [hv] at h
      | none =>
        simp only [hv] at h
        cases hrec : executeAux rest (i + 1) (Dict.update acc result) with
        | error e => simp [hrec] at h
        | ok out =>
          obtain ⟨finalData', tr'⟩ := out
          simp only [hrec, Except.ok.injEq, Prod.mk.injEq] at h
          obtain ⟨rfl, rfl⟩ := h
          obtain ⟨h1, h2⟩ := ih _ _ _ _ hrec
          simp [h1, h2]

/-- Running a concatenation is running the two halves in sequence; the
second half starts at the shifted step index and at the first half's final
context. -/
theorem executeAux_append :
    ∀ (xs ys : List (Block V)) (i : Nat) (acc : Dict V),
      executeAux (xs ++ ys) i acc =
        match executeAux xs i acc with
        | .error e => .error e
        | .ok (mid, tr1) =>
          match executeAux ys (i + xs.length) mid with
          | .error e => .error e
          | .ok (finalData, tr2) => .ok (finalData, tr1 ++ tr2) := by
  intro xs
  induction xs with
  | nil =>
    intro ys i acc
    simp only [List.nil_append, executeAux, List.length_nil, Nat.add_zero]
    cases executeAux ys i acc with
    | error e => rfl
    | ok out => rfl
  | cons b rest ih =>
    intro ys i acc
    simp only [List.cons_append, executeAux]
    cases hrun : b.run acc with
    | error e =>
      cases e with
      | validationError m d => simp [hrun]
      | exc m => simp [hrun]
    | ok result =>
      simp only [hrun]
      cases hv : validateOutput b result with
      | some e => simp [hv]
      | none =>
        simp only [hv, List.append_eq]
        rw [ih ys (i + 1) (Dict.update acc result)]
        cases hrec : executeAux rest (i + 1) (Dict.update acc result) with
        | error e => simp [hrec]
        | ok out =>
          obtain ⟨mid, tr1⟩ := out
          simp only [hrec, List.length_cons]
          have harith : i + 1 + rest.length = i + (rest.length + 1) := by omega
          rw [harith]
          cases executeAux ys (i + (rest.length + 1)) mid with
          | error e => simp
          | ok out2 => simp

theorem traceChain_getLast_state :
    ∀ (tr : List (TraceEntry V)) (acc finalData : Dict V),
      TraceChain acc tr finalData →
        ∀ h : tr ≠ [], (tr.getLast h).accumulated_state = finalData := by
  intro tr
  induction tr with
  | nil => intro acc f _ h; exact absurd rfl h
  | cons e rest ih =>
    intro acc f hc h
    obtain ⟨_, _, hch⟩ := hc
    cases rest with
    | nil => simpa [List.getLast] using hch.symm
    | cons e2 rest2 =>
      rw [List.getLast_cons (by simp)]
      exact ih _ _ hch (by simp)

theorem traceChain_keys_final :
    ∀ (tr : List (TraceEntry V)) (acc finalData : Dict V),
      TraceChain acc tr finalData →
        ∀ k, k ∈ Dict.keys acc → k ∈ Dict.keys finalData := by
  intro tr
  induction tr with
  | nil =>
    intro acc f hc k hk
    rw [hc]; exact hk
  | cons e rest ih =>
    intro acc f hc k hk
    obtain ⟨_, hst, hch⟩ := hc
    exact ih _ _ hch k (by rw [hst]; exact Dict.mem_keys_update.mpr (Or.inl hk))

theorem traceChain_append :
    ∀ (t1 t2 : List (TraceEntry V)) (acc finalData : Dict V),
      TraceChain acc (t1 ++ t2) finalData →
        ∃ mid, TraceChain acc t1 mid ∧ TraceChain mid t2 finalData := by
  intro t1
  induction t1 with
  | nil =>
    intro t2 acc f hc
    exact ⟨acc, rfl, hc⟩
  | cons e rest ih =>
    intro t2 acc f hc
    obtain ⟨hin, hst, hch⟩ := hc
    obtain ⟨mid, h1, h2⟩ := ih _ _ _ hch
    exact ⟨mid, ⟨hin, hst, h1⟩, h2⟩

theorem traceChain_get_of_no_writer :
    ∀ (tr : List (TraceEntry V)) (acc finalData : Dict V) (k : String),
      TraceChain acc tr finalData →
        (∀ e ∈ tr, k ∉ Dict.keys e.output) →
          Dict.get finalData k = Dict.get acc k := by
  intro tr
  induction tr with
  | nil =>
    intro acc f k hc _
    rw [hc]
  | cons e rest ih =>
    intro acc f k hc hw
    obtain ⟨_, hst, hch⟩ := hc
    rw [ih _ _ _ hch (fun e' he' => hw e' (List.mem_cons_of_mem _ he')), hst]
    exact Dict.get_update_of_not_mem _ _ _ (hw e (List.mem_cons_self ..))

/-- A block whose `execute` raises an ordinary exception makes the loop
stop with the wrapped `BlockExecutionError` (`workflow.py` lines 117-128). -/
theorem executeAux_cons_exc (b : Block V) (rest : List (Block V)) (i : Nat)
    (acc : Dict V) (m : String) (h : b.run acc = .error (.exc m)) :
    executeAux (b :: rest) i acc =
      .error (.blockExecution
        ("Block '" ++ b.name ++ "' failed at step " ++ toString (i + 1) ++ ": " ++ m)
        { block_type := b.name, step := i + 1, error := m, input := acc }) := by
  simp [executeAux, h, Dict.copy]

/-- A block whose result fails `_validate_output` makes the loop stop with
that `ValidationError`, re-raised as-is (`workflow.py` lines 113-116). -/
theorem executeAux_cons_validation_fail (b : Block V) (rest : List (Block V))
    (i : Nat) (acc result : Dict V) (e : PipelineError V)
    (hrun : b.run acc = .ok result) (hv : validateOutput b result = some e) :
    executeAux (b :: rest) i acc = .error e := by
  simp [executeAux, hrun, hv]

end ExecLemmas

/-! ## Caller-aliasing model for the frame property

`Pipeline.execute` copies `initial_data` (`workflow.py` line 62) and from
then on every dict write in the method body (the merge at line 101)
targets the copy.  To make that observable in the embedding, the variant
below threads the caller's dict object through the loop as an explicit
extra component alongside the working copy; each step performs the same
computation as `executeAux` and leaves the caller component exactly as the
source does — untouched, since no statement of `execute` assigns into
`initial_data` after the copy is taken. -/

section Tracked

variable {V : Type}

/-- The loop of `Pipeline.execute` with the caller's `initial_data` object
threaded explicitly next to the working `accumulated_data` copy. -/
def executeAuxTracked :
    List (Block V) → Nat → Dict V → Dict V →
      (Except (PipelineError V) (Dict V × List (TraceEntry V))) × Dict V
  | [], _, callerData, acc => (.ok (acc, []), callerData)
  | b :: rest, i, callerData, acc =>
    let blockInput := Dict.copy acc
    match b.run acc with
    | .error (.validationError m d) => (.error (.validation m d), callerData)
    | .error (.exc m) =>
        (.error (.blockExecution
          ("Block '" ++ b.name ++ "' failed at step " ++ toString (i + 1) ++ ": " ++ m)
          { block_type := b.name, step := i + 1, error := m, input := blockInput }),
         callerData)
    | .ok result =>
      match validateOutput b result with
      | some e => (.error e, callerData)
      | none =>
        let acc' := Dict.update acc result
        match executeAuxTracked rest (i + 1) callerData acc' with
        | (.error e, callerAfter) => (.error e, callerAfter)
        | (.ok (finalData, tr), callerAfter) =>
            (.ok (finalData,
              { block_type := b.name, input := blockInput, output := result,
                accumulated_state := Dict.copy acc' } :: tr),
             callerAfter)

/-- `Pipeline.execute` with the caller's dict tracked: the second
component is the caller's `initial_data` object as it stands after the
call returns or raises. -/
def Pipeline.executeTracked (p : Pipeline V) (initialData : Dict V) :
    (Except (PipelineError V) (Dict V × List (TraceEntry V))) × Dict V :=
  executeAuxTracked p.blockInstances 0 initialData (Dict.copy initialData)

theorem executeAuxTracked_spec :
    ∀ (bs : List (Block V)) (i : Nat) (callerData acc : Dict V),
      executeAuxTracked bs i callerData acc =
        (executeAux bs i acc, callerData) := by
  intro bs
  induction bs with
  | nil => intro i callerData acc; rfl
  | cons b rest ih =>
    intro i callerData acc
    simp only [executeAuxTracked, executeAux]
    cases hrun : b.run acc with
    | error e => cases e <;> simp [hrun]
    | ok result =>
      simp only [hrun]
      cases hv : validateOutput b result with
      | some e => simp [hv]
      | none =>
        simp only [hv, ih]
        cases hrec : executeAux rest (i + 1) (Dict.update acc result) with
        | error e => simp [hrec]
        | ok out => obtain ⟨finalData, tr⟩ := out; simp [hrec]

end Tracked

/-! ## Config schema derivation (`lib/blocks/config.py` and
`lib/blocks/base.py`)

Python type annotations, as `typing.get_type_hints` /
`typing.get_origin` / `typing.get_args` see them.  CPython flattens
nested unions, so a union's arguments are themselves non-union types, but
nothing in the embedding relies on that. -/

/-- A constructor parameter's resolved type annotation. -/
inductive PyType where
  | int
  | float
  | bool
  | str
  | noneType
  | other (name : String)
  | list (item : Option PyType)
  | union (args : List PyType)

/-- `arg is type(None)` (`config.py` line 56). -/
def PyType.isNoneType : PyType → Bool
  | .noneType => true
  | _ => false

/-- One entry of the JSON-schema-shaped `properties` mapping produced by
`BlockConfigSchema` (`config.py` lines 49-83 plus the mutations at lines
27-38): a `type` tag, an optional `items` sub-schema for arrays, and the
optional `default` / `enum` / `isFieldReference` keys that
`get_config_schema` adds on top. -/
inductive PropertyDef (V : Type) where
  | mk (type : String) (items : Option (PropertyDef V)) (default : Option V)
       (enum : Option (List V)) (isFieldReference : Bool)

namespace PropertyDef

variable {V : Type}

def type : PropertyDef V → String
  | .mk t _ _ _ _ => t

def items : PropertyDef V → Option (PropertyDef V)
  | .mk _ it _ _ _ => it

def default : PropertyDef V → Option V
  | .mk _ _ d _ _ => d

def enum : PropertyDef V → Option (List V)
  | .mk _ _ _ e _ => e

def isFieldReference : PropertyDef V → Bool
  | .mk _ _ _ _ r => r

/-- `property_def["default"] = param.default` (`config.py` line 28). -/
def withDefault : PropertyDef V → V → PropertyDef V
  | .mk t it _ e r, v => .mk t it (some v) e r

/-- `property_def["enum"] = enum_values[param_name]` (`config.py` line 34). -/
def withEnum : PropertyDef V → List V → PropertyDef V
  | .mk t it d _ r, vs => .mk t it d (some vs) r

/-- `property_def["isFieldReference"] = True` (`config.py` line 38). -/
def withFieldReference : PropertyDef V → PropertyDef V
  | .mk t it d e _ => .mk t it d e true

@[simp] theorem type_withDefault (p : PropertyDef V) (v : V) :
    (p.withDefault v).type = p.type := by cases p; rfl

@[simp] theorem type_withEnum (p : PropertyDef V) (vs : List V) :
    (p.withEnum vs).type = p.type := by cases p; rfl

@[simp] theorem type_withFieldReference (p : PropertyDef V) :
    p.withFieldReference.type = p.type := by cases p; rfl

@[simp] theorem items_withDefault (p : PropertyDef V) (v : V) :
    (p.withDefault v).items = p.items := by cases p; rfl

@[simp] theorem items_withEnum (p : PropertyDef V) (vs : List V) :
    (p.withEnum vs).items = p.items := by cases p; rfl

@[simp] theorem items_withFieldReference (p : PropertyDef V) :
    p.withFieldReference.items = p.items := by cases p; rfl

@[simp] theorem default_withDefault (p : PropertyDef V) (v : V) :
    (p.withDefault v).default = some v := by cases p; rfl

end PropertyDef

/-- `BlockConfigSchema._get_property_def` (`config.py` lines 48-83):
convert a resolved annotation to a JSON-schema property.  A union drops
its `NoneType` arms and recurses on the first remaining arm (both the
`len == 1` and the multi-arm branch of the source do exactly that); a
union with no non-`None` arm falls through the basic-type comparisons and
lands on the conservative `string` default, as does every non-container
type other than `int`/`float`/`bool`/`str`.  A bare `list` recurses on
`str` (source line 67), which yields the inlined string property. -/
def getPropertyDef {V : Type} : PyType → PropertyDef V
  | .union args =>
    match h : args.filter (fun a => !a.isNoneType) with
    | t :: _ => getPropertyDef t
    | [] => .mk "string" none none none false
  | .list (some t) => .mk "array" (some (getPropertyDef t)) none none false
  | .list none => .mk "array" (some (.mk "string" none none none false)) none none false
  | .int => .mk "integer" none none none false
  | .float => .mk "number" none none none false
  | .bool => .mk "boolean" none none none false
  | .str => .mk "string" none none none false
  | .noneType => .mk "string" none none none false
  | .other _ => .mk "string" none none none false
termination_by t => sizeOf t
decreasing_by
  · have ht : t ∈ args := by
      have : t ∈ args.filter (fun a => !a.isNoneType) := by
        rw [h]; exact List.mem_cons_self ..
      exact List.mem_of_mem_filter this
    have := List.sizeOf_lt_of_mem ht
    simp only [PyType.union.sizeOf_spec]
    omega
  · simp only [PyType.list.sizeOf_spec, Option.some.sizeOf_spec]
    omega

/-- A constructor parameter as `inspect.signature` reports it:
`annotation = none` stands for a missing annotation
(`inspect.Parameter.empty`), `default = none` for a missing default. -/
structure PyParam (V : Type) where
  name : String
  annotation : Option PyType
  default : Option V

/-- Everything the two schema functions introspect from a block class:
`cls.__name__`, the class-level metadata attributes, and the `__init__`
parameters (excluding `self`).  `algorithm`/`paper` are `none` when the
class does not define those attributes; `configEnums` and
`fieldReferences` are `getattr(block_class, '_config_enums', {})` and
`getattr(block_class, '_field_references', [])`. -/
structure BlockClassDesc (V : Type) where
  className : String
  name : String
  description : String
  inputs : List String
  outputs : List String
  params : List (PyParam V)
  algorithm : Option String
  paper : Option String
  configEnums : Dict (List V)
  fieldReferences : List String

/-- The object returned by `BlockConfigSchema.get_config_schema`
(`config.py` lines 42-46): `{"type": "object", "properties": ...,
"required": [...]}`.  The `properties` dict is populated by one
assignment per parameter over distinct parameter names, hence embedded as
the association list in parameter order. -/
structure ConfigSchema (V : Type) where
  type : String
  properties : Dict (PropertyDef V)
  required : List String

/-- The per-parameter body of the loop in `get_config_schema`
(`config.py` lines 19-40). -/
def propertyFor {V : Type} (cls : BlockClassDesc V) (p : PyParam V) :
    PropertyDef V :=
  let propertyDef := getPropertyDef (p.annotation.getD .str)
  let withDef :=
    match p.default with
    | some v => propertyDef.withDefault v
    | none => propertyDef
  let withEnum :=
    match Dict.get cls.configEnums p.name with
    | some vs => withDef.withEnum vs
    | none => withDef
  if p.name ∈ cls.fieldReferences then withEnum.withFieldReference else withEnum

/-- `BlockConfigSchema.get_config_schema` (`config.py` lines 6-46). -/
def getConfigSchema {V : Type} (cls : BlockClassDesc V) : ConfigSchema V :=
  { type := "object"
    properties := cls.params.map (fun p => (p.name, propertyFor cls p))
    required := (cls.params.filter (fun p => p.default.isNone)).map (·.name) }

/-- One entry of the flat `config_schema` dict that `BaseBlock.get_schema`
builds inline (`base.py` lines 35-39): `{"type": ..., "required": ...,
"default": ...}`, where `default` is `None` when the parameter has no
default. -/
structure FlatParamSchema (V : Type) where
  type : String
  required : Bool
  default : Option V
deriving DecidableEq, Repr

/-- A value of the dict returned by `BaseBlock.get_schema`
(`lib/blocks/base.py` lines 41-48): a string, a list of strings, or the
flat config-schema dict that `get_schema` builds inline. -/
inductive SchemaVal (V : Type) where
  | s (v : String)
  | strList (v : List String)
  | flatConfig (v : Dict (FlatParamSchema V))
deriving DecidableEq, Repr

/-- The `param_type` computation of `BaseBlock.get_schema` (`base.py`
lines 26-33): `"string"` unless the annotation is literally `int` or
`float` (both mapped to `"number"`) or `bool` (`"boolean"`); note `int`
maps to `"number"` here, unlike the deriver in `config.py`, and union or
container annotations never compare equal to the primitives. -/
def baseParamType : Option PyType → String
  | none => "string"
  | some .int => "number"
  | some .float => "number"
  | some .bool => "boolean"
  | some _ => "string"

/-- `BaseBlock.get_schema` (`base.py` lines 16-48), as the key-value dict
it returns.  The keys are exactly the six literal keys of the dict at
lines 41-48: the optional class attributes `algorithm`/`paper` are never
consulted, and `config_schema` is the flat inline dict, not the object
from `BlockConfigSchema.get_config_schema`. -/
def getSchema {V : Type} (cls : BlockClassDesc V) : Dict (SchemaVal V) :=
  [("type", .s cls.className),
   ("name", .s cls.name),
   ("description", .s cls.description),
   ("inputs", .strList cls.inputs),
   ("outputs", .strList cls.outputs),
   ("config_schema", .flatConfig (cls.params.map (fun p =>
      (p.name,
       { type := baseParamType p.annotation
         required := p.default.isNone
         default := p.default }))))]

/-! ## Helper lemmas for the claims -/

section ClaimHelpers

variable {V : Type}

/-- Looking up an association list built by mapping over elements with
pairwise-distinct keys. -/
theorem get_map_assoc {α W : Type} (f : α → String) (g : α → W) :
    ∀ (xs : List α) (x : α), (xs.map f).Nodup → x ∈ xs →
      Dict.get (xs.map fun y => (f y, g y)) (f x) = some (g x) := by
  intro xs
  induction xs with
  | nil => intro x _ hx; cases hx
  | cons y ys ih =>
    intro x hnd hx
    rw [List.map_cons] at hnd
    obtain ⟨hny, hnd'⟩ := List.nodup_cons.mp hnd
    rcases List.mem_cons.mp hx with rfl | hmem
    · simp [Dict.get]
    · have hne : f y ≠ f x := fun he => hny (he ▸ List.mem_map_of_mem f hmem)
      simpa [Dict.get, hne] using ih x hnd' hmem

theorem initializeBlocks_ok_length (reg : Registry V) :
    ∀ (defs : List (BlockDef V)) (instances : List (Block V)),
      initializeBlocks reg defs = .ok instances →
        instances.length = defs.length := by
  intro defs
  induction defs with
  | nil =>
    intro instances h
    simp only [initializeBlocks, Except.ok.injEq] at h
    simp [← h]
  | cons d rest ih =>
    intro instances h
    simp only [initializeBlocks] at h
    cases hg : Dict.get reg d.type with
    | none => simp [hg] at h
    | some blockClass =>
      simp only [hg] at h
      cases hr : initializeBlocks reg rest with
      | error e => simp [hr] at h
      | ok insts =>
        simp only [hr, Except.ok.injEq] at h
        simp [← h, ih insts hr]

/-- The first block definition whose type has no registered class aborts
`_initialize_blocks` with the `BlockNotFoundError`. -/
theorem initializeBlocks_first_miss (reg : Registry V) (d : BlockDef V)
    (post : List (BlockDef V)) :
    ∀ (pre : List (BlockDef V)),
      (∀ d' ∈ pre, (Dict.get reg d'.type).isSome) →
      Dict.get reg d.type = none →
      initializeBlocks reg (pre ++ d :: post) =
        .error (.blockNotFound ("Block '" ++ d.type ++ "' not found")
          { block_type := d.type, available_blocks := Dict.keys reg }) := by
  intro pre
  induction pre with
  | nil =>
    intro _ hmiss
    simp [initializeBlocks, hmiss]
  | cons d' rest ih =>
    intro hpre hmiss
    have hsome : (Dict.get reg d'.type).isSome := hpre d' (List.mem_cons_self ..)
    cases hg : Dict.get reg d'.type with
    | none => rw [hg] at hsome; cases hsome
    | some blockClass =>
      have hrest := ih (fun x hx => hpre x (List.mem_cons_of_mem _ hx)) hmiss
      simp [initializeBlocks, hg, hrest]

/-- `_validate_output` only ever produces a `ValidationError`. -/
theorem validateOutput_some_shape (b : Block V) (result : Dict V)
    (e : PipelineError V) (h : validateOutput b result = some e) :
    ∃ m d, e = .validation m d := by
  simp only [validateOutput] at h
  by_cases hc : ∀ k ∈ Dict.keys result, k ∈ b.outputs.dedup
  · rw [if_pos hc] at h; cases h
  · rw [if_neg hc] at h
    exact ⟨_, _, (Option.some.injEq .. ▸ h).symm⟩

/-- The failing validation step produces exactly the error built at
`workflow.py` lines 44-52. -/
theorem validateOutput_fail (b : Block V) (result : Dict V)
    (hbad : ¬∀ k ∈ Dict.keys result, k ∈ b.outputs.dedup) :
    validateOutput b result = some (.validation
      ("Block '" ++ b.name ++ "' returned undeclared fields: "
        ++ String.intercalate ", "
            ((Dict.keys result).filter (fun k => k ∉ b.outputs.dedup)))
      { block_type := b.name, declared_outputs := b.outputs.dedup,
        actual_outputs := Dict.keys result,
        extra_fields :=
          (Dict.keys result).filter (fun k => k ∉ b.outputs.dedup) }) := by
  simp only [validateOutput]
  rw [if_neg hbad]

/-- A run whose prefix succeeds and whose next block's output fails
validation raises that `ValidationError` and produces no final context. -/
theorem execute_validation_fail (p : Pipeline V) (xs : List (Block V))
    (b : Block V) (ys : List (Block V)) (initialData acc : Dict V)
    (tr : List (TraceEntry V)) (result : Dict V)
    (hblocks : p.blockInstances = xs ++ b :: ys)
    (hfront : executeAux xs 0 (Dict.copy initialData) = .ok (acc, tr))
    (hrun : b.run acc = .ok result)
    (hbad : ¬∀ k ∈ Dict.keys result, k ∈ b.outputs.dedup) :
    p.execute initialData = .error (.validation
      ("Block '" ++ b.name ++ "' returned undeclared fields: "
        ++ String.intercalate ", "
            ((Dict.keys result).filter (fun k => k ∉ b.outputs.dedup)))
      { block_type := b.name, declared_outputs := b.outputs.dedup,
        actual_outputs := Dict.keys result,
        extra_fields :=
          (Dict.keys result).filter (fun k => k ∉ b.outputs.dedup) }) := by
  unfold Pipeline.execute
  rw [hblocks, executeAux_append, hfront]
  simp only []
  rw [executeAux_cons_validation_fail b ys (0 + xs.length) acc result _ hrun
    (validateOutput_fail b result hbad)]

/-- A run whose prefix succeeds and whose next block raises an ordinary
exception yields the wrapped `BlockExecutionError` for the 1-based step
`xs.length + 1`. -/
theorem execute_exc_fail (p : Pipeline V) (xs : List (Block V))
    (b : Block V) (ys : List (Block V)) (initialData acc : Dict V)
    (tr : List (TraceEntry V)) (m : String)
    (hblocks : p.blockInstances = xs ++ b :: ys)
    (hfront : executeAux xs 0 (Dict.copy initialData) = .ok (acc, tr))
    (hexc : b.run acc = .error (.exc m)) :
    p.execute initialData = .error (.blockExecution
      ("Block '" ++ b.name ++ "' failed at step " ++ toString (xs.length + 1) ++ ": " ++ m)
      { block_type := b.name, step := xs.length + 1, error := m, input := acc }) := by
  unfold Pipeline.execute
  rw [hblocks, executeAux_append, hfront]
  simp only []
  rw [executeAux_cons_exc b ys (0 + xs.length) acc m hexc]
  simp [Nat.zero_add]

/-- Every error `executeAux` can return, when no block raises the engine's
own `ValidationError` from inside its `execute`, is either the validation
error built at `workflow.py` lines 44-52 or the execution error built at
lines 120-128; its detail dict has the corresponding fixed key set. -/
theorem executeAux_error_detailKeys :
    ∀ (bs : List (Block V)) (i : Nat) (acc : Dict V) (e : PipelineError V),
      (∀ b ∈ bs, ∀ c m d, b.run c ≠ .error (.validationError m d)) →
      executeAux bs i acc = .error e →
        e.detailKeys = ["block_type", "declared_outputs", "actual_outputs", "extra_fields"]
          ∨ e.detailKeys = ["block_type", "step", "error", "input"] := by
  intro bs
  induction bs with
  | nil => intro i acc e _ h; simp [executeAux] at h
  | cons b rest ih =>
    intro i acc e hpure h
    simp only [executeAux] at h
    cases hrun : b.run acc with
    | error exc =>
      cases exc with
      | validationError m d =>
        exact absurd hrun (hpure b (List.mem_cons_self ..) acc m d)
      | exc m =>
        simp only [hrun, Except.error.injEq] at h
        subst h
        right
        rfl
    | ok result =>
      simp only [hrun] at h
      cases hv : validateOutput b result with
      | some e' =>
        simp only [hv, Except.error.injEq] at h
        subst h
        obtain ⟨m, d, rfl⟩ := validateOutput_some_shape b result e' hv
        left
        rfl
      | none =>
        simp only [hv] at h
        cases hrec : executeAux rest (i + 1) (Dict.update acc result) with
        | error e' =>
          simp only [hrec, Except.error.injEq] at h
          subst h
          exact ih _ _ _ (fun x hx => hpure x (List.mem_cons_of_mem _ hx)) hrec
        | ok out =>
          obtain ⟨finalData, tr⟩ := out
          simp [hrec] at h

end ClaimHelpers

/-! ## Concrete blocks, registries and pipelines for witnesses -/

/-- A stub block declaring `outputs = ["a"]` but returning
`{"a": 1, "b": 2}` (spec §8, scenario 4). -/
def stubBadBlock : Block Nat :=
  { name := "StubBlock", outputs := ["a"], run := fun _ => .ok [("a", 1), ("b", 2)] }

def c1pipe : Pipeline Nat :=
  { name := "t", blocks := [{ type := "StubBlock", config := [] }],
    blockInstances := [stubBadBlock] }

/-- A block that writes `x = 5`. -/
def echoBlock : Block Nat :=
  { name := "EchoBlock", outputs := ["x"], run := fun _ => .ok [("x", 5)] }

def c2registry : Registry Nat := [("EchoBlock", fun _ => echoBlock)]

def c2defs : List (BlockDef Nat) := [{ type := "EchoBlock", config := [] }]

def c2pipe : Pipeline Nat := { name := "t", blocks := c2defs, blockInstances := [echoBlock] }

/-- Block A of the merge-overwrite scenario: declares and writes `x = 1`. -/
def overwriteBlockA : Block Nat :=
  { name := "A", outputs := ["x"], run := fun _ => .ok [("x", 1)] }

/-- Block B of the merge-overwrite scenario: declares and writes `x = 2`. -/
def overwriteBlockB : Block Nat :=
  { name := "B", outputs := ["x"], run := fun _ => .ok [("x", 2)] }

def c3pipe : Pipeline Nat :=
  { name := "t",
    blocks := [{ type := "A", config := [] }, { type := "B", config := [] }],
    blockInstances := [overwriteBlockA, overwriteBlockB] }

def firstBlock : Block Nat :=
  { name := "FirstBlock", outputs := ["a"], run := fun _ => .ok [("a", 1)] }

/-- A stub block whose `execute` raises `RuntimeError("boom")`
(spec §8, scenario 5). -/
def boomBlock : Block Nat :=
  { name := "BoomBlock", outputs := [], run := fun _ => .error (.exc "boom") }

def thirdBlock : Block Nat :=
  { name := "ThirdBlock", outputs := [], run := fun _ => .ok [] }

def c4pipe : Pipeline Nat :=
  { name := "t",
    blocks := [{ type := "FirstBlock", config := [] },
               { type := "BoomBlock", config := [] },
               { type := "ThirdBlock", config := [] }],
    blockInstances := [firstBlock, boomBlock, thirdBlock] }

def c5registry : Registry Nat := [("EchoBlock", fun _ => echoBlock)]

/-! ## The claims -/

/-- **C1**: if the block at some step returns a mapping with a key outside
its declared `outputs`, `Pipeline.execute` raises the `ValidationError`
whose detail carries the block type, the declared outputs, the actual
returned keys and the extra keys; the offending result is never merged —
the run produces no final context at all (second conjunct), so no final
accumulated context containing the undeclared key exists. -/
theorem c1_output_validation {V : Type} (p : Pipeline V) (xs : List (Block V))
    (b : Block V) (ys : List (Block V)) (initialData acc : Dict V)
    (tr : List (TraceEntry V)) (result : Dict V)
    (hblocks : p.blockInstances = xs ++ b :: ys)
    (hfront : executeAux xs 0 (Dict.copy initialData) = .ok (acc, tr))
    (hrun : b.run acc = .ok result)
    (hbad : ¬∀ k ∈ Dict.keys result, k ∈ b.outputs.dedup) :
    p.execute initialData = .error (.validation
      ("Block '" ++ b.name ++ "' returned undeclared fields: "
        ++ String.intercalate ", "
            ((Dict.keys result).filter (fun k => k ∉ b.outputs.dedup)))
      { block_type := b.name, declared_outputs := b.outputs.dedup,
        actual_outputs := Dict.keys result,
        extra_fields :=
          (Dict.keys result).filter (fun k => k ∉ b.outputs.dedup) }) ∧
    ∀ finalData trace, p.execute initialData ≠ .ok (finalData, trace) := by
  have h := execute_validation_fail p xs b ys initialData acc tr result
    hblocks hfront hrun hbad
  refine ⟨h, fun finalData trace hok => ?_⟩
  rw [h] at hok
  cases hok

theorem c1_output_validation_witness :
    c1pipe.execute [] = .error (.validation
      "Block 'StubBlock' returned undeclared fields: b"
      { block_type := "StubBlock", declared_outputs := ["a"],
        actual_outputs := ["a", "b"], extra_fields := ["b"] }) ∧
    ∀ finalData trace,
      c1pipe.execute [] ≠ .ok (finalData, trace) :=
  c1_output_validation c1pipe [] stubBadBlock [] [] [] [] [("a", 1), ("b", 2)]
    rfl rfl rfl (by decide)

/-- **C2**: a successful run of a pipeline loaded from `N` block
definitions returns a trace with exactly `N` entries, in block order
(entry `i` names block `i`), and the returned final context equals the
last trace entry's `accumulated_state`. -/
theorem c2_trace_shape {V : Type} (reg : Registry V) (pname : String)
    (defs : List (BlockDef V)) (p : Pipeline V) (initialData finalData : Dict V)
    (tr : List (TraceEntry V))
    (hload : Pipeline.load reg pname defs = .ok p)
    (hrun : p.execute initialData = .ok (finalData, tr)) :
    tr.length = defs.length ∧
    tr.map (·.block_type) = p.blockInstances.map (·.name) ∧
    ∀ hne : tr ≠ [], (tr.getLast hne).accumulated_state = finalData := by
  unfold Pipeline.load at hload
  cases hinit : initializeBlocks reg defs with
  | error e => rw [hinit] at hload; cases hload
  | ok instances =>
    rw [hinit] at hload
    simp only [Except.map, Except.ok.injEq] at hload
    subst hload
    have hlen := executeAux_ok_length instances 0 _ _ _ hrun
    have hchain := executeAux_ok_chain instances 0 _ _ _ hrun
    exact ⟨by rw [hlen.1, initializeBlocks_ok_length reg defs instances hinit],
           hlen.2, traceChain_getLast_state tr _ _ hchain⟩

theorem c2_trace_shape_witness :
    ([({ block_type := "EchoBlock", input := [("s", 0)], output := [("x", 5)],
         accumulated_state := [("s", 0), ("x", 5)] } : TraceEntry Nat)].length
       = c2defs.length) ∧
    ([({ block_type := "EchoBlock", input := [("s", 0)], output := [("x", 5)],
         accumulated_state := [("s", 0), ("x", 5)] } : TraceEntry Nat)].map
        (·.block_type) = c2pipe.blockInstances.map (·.name)) ∧
    ∀ hne, (([({ block_type := "EchoBlock", input := [("s", 0)],
                 output := [("x", 5)],
                 accumulated_state := [("s", 0), ("x", 5)] } :
                TraceEntry Nat)]).getLast hne).accumulated_state
             = [("s", 0), ("x", 5)] :=
  c2_trace_shape c2registry "t" c2defs c2pipe [("s", 0)] [("s", 0), ("x", 5)]
    [{ block_type := "EchoBlock", input := [("s", 0)], output := [("x", 5)],
       accumulated_state := [("s", 0), ("x", 5)] }] rfl rfl

/-- **C3**: during a successful run, if entry `eA` outputs `x = vA` and a
later entry `eB` outputs `x = vB` with no entry after `eB` outputting `x`,
then the final context holds `vB` while `eA`'s own `accumulated_state`
snapshot still holds `vA`; moreover merging never removes keys — every key
of the initial context survives to the final context and every key of
`eA`'s snapshot survives to `eB`'s snapshot. -/
theorem c3_merge_overwrite {V : Type} (p : Pipeline V)
    (initialData finalData : Dict V) (t1 t2 t3 : List (TraceEntry V))
    (eA eB : TraceEntry V) (x : String) (vA vB : V)
    (hrun : p.execute initialData = .ok (finalData, t1 ++ eA :: (t2 ++ eB :: t3)))
    (hA : Dict.get eA.output x = some vA)
    (hAnd : (Dict.keys eA.output).Nodup)
    (hB : Dict.get eB.output x = some vB)
    (hBnd : (Dict.keys eB.output).Nodup)
    (hlast : ∀ e ∈ t3, x ∉ Dict.keys e.output) :
    Dict.get finalData x = some vB ∧
    Dict.get eA.accumulated_state x = some vA ∧
    (∀ k, k ∈ Dict.keys initialData → k ∈ Dict.keys finalData) ∧
    (∀ k, k ∈ Dict.keys eA.accumulated_state →
      k ∈ Dict.keys eB.accumulated_state) := by
  have hchain := executeAux_ok_chain _ 0 _ _ _ hrun
  obtain ⟨mid1, hc1, hc2⟩ := traceChain_append t1 _ _ _ hchain
  obtain ⟨hinA, hstA, hc3⟩ := hc2
  obtain ⟨mid2, hc4, hc5⟩ := traceChain_append t2 _ _ _ hc3
  obtain ⟨hinB, hstB, hc6⟩ := hc5
  have hmemA : x ∈ Dict.keys eA.output := by
    by_contra hno
    rw [Dict.get_eq_none_iff_not_mem.mpr hno] at hA
    cases hA
  have hmemB : x ∈ Dict.keys eB.output := by
    by_contra hno
    rw [Dict.get_eq_none_iff_not_mem.mpr hno] at hB
    cases hB
  refine ⟨?_, ?_, ?_, ?_⟩
  · rw [traceChain_get_of_no_writer t3 _ _ x hc6 hlast, hstB,
      Dict.get_update_of_mem _ _ _ hBnd hmemB]
    exact hB
  · rw [hstA, Dict.get_update_of_mem _ _ _ hAnd hmemA]
    exact hA
  · exact fun k hk => traceChain_keys_final _ _ _ hchain k hk
  · intro k hk
    have hk2 := traceChain_keys_final t2 _ _ hc4 k hk
    rw [hstB]
    exact Dict.mem_keys_update.mpr (Or.inl hk2)

theorem c3_merge_overwrite_witness :
    Dict.get [("x", 2)] "x" = some 2 ∧
    Dict.get (({ block_type := "A", input := [], output := [("x", 1)],
                 accumulated_state := [("x", 1)] } :
               TraceEntry Nat)).accumulated_state "x" = some 1 ∧
    (∀ k, k ∈ Dict.keys ([] : Dict Nat) → k ∈ Dict.keys [("x", 2)]) ∧
    (∀ k, k ∈ Dict.keys (({ block_type := "A", input := [],
                            output := [("x", 1)],
                            accumulated_state := [("x", 1)] } :
                          TraceEntry Nat)).accumulated_state →
      k ∈ Dict.keys (({ block_type := "B", input := [("x", 1)],
                        output := [("x", 2)],
                        accumulated_state := [("x", 2)] } :
                      TraceEntry Nat)).accumulated_state) :=
  c3_merge_overwrite c3pipe [] [("x", 2)] [] [] []
    { block_type := "A", input := [], output := [("x", 1)],
      accumulated_state := [("x", 1)] }
    { block_type := "B", input := [("x", 1)], output := [("x", 2)],
      accumulated_state := [("x", 2)] }
    "x" 1 2 rfl rfl (by decide) rfl (by decide) (by intro e he; cases he)

/-- **C4**: any exception raised by a block's `execute` other than the
engine's own `ValidationError` is re-raised as a `BlockExecutionError`
whose detail carries the block type, the 1-based step number, the original
error's message and the context snapshot fed to the block; the run
terminates with no final context (no retry). -/
theorem c4_block_execution_error {V : Type} (p : Pipeline V)
    (xs : List (Block V)) (b : Block V) (ys : List (Block V))
    (initialData acc : Dict V) (tr : List (TraceEntry V)) (m : String)
    (hblocks : p.blockInstances = xs ++ b :: ys)
    (hfront : executeAux xs 0 (Dict.copy initialData) = .ok (acc, tr))
    (hexc : b.run acc = .error (.exc m)) :
    p.execute initialData = .error (.blockExecution
      ("Block '" ++ b.name ++ "' failed at step " ++ toString (xs.length + 1)
        ++ ": " ++ m)
      { block_type := b.name, step := xs.length + 1, error := m,
        input := acc }) ∧
    ∀ finalData trace, p.execute initialData ≠ .ok (finalData, trace) := by
  have h := execute_exc_fail p xs b ys initialData acc tr m hblocks hfront hexc
  refine ⟨h, fun finalData trace hok => ?_⟩
  rw [h] at hok
  cases hok

theorem c4_block_execution_error_witness :
    c4pipe.execute [] = .error (.blockExecution
      "Block 'BoomBlock' failed at step 2: boom"
      { block_type := "BoomBlock", step := 2, error := "boom",
        input := [("a", 1)] }) ∧
    ∀ finalData trace, c4pipe.execute [] ≠ .ok (finalData, trace) :=
  c4_block_execution_error c4pipe [firstBlock] boomBlock [thirdBlock] []
    [("a", 1)]
    [{ block_type := "FirstBlock", input := [], output := [("a", 1)],
       accumulated_state := [("a", 1)] }]
    "boom" rfl rfl rfl

/-- **C5**: a pipeline definition containing a block type with no
registered implementation fails at construction (`Pipeline.load`) with the
`BlockNotFoundError` carrying the requested type name and the full list of
available type names; construction is all-or-nothing — no `Pipeline` value
is produced (second conjunct), so nothing ever executes. -/
theorem c5_block_not_found {V : Type} (reg : Registry V) (pname : String)
    (pre : List (BlockDef V)) (d : BlockDef V) (post : List (BlockDef V))
    (hpre : ∀ d' ∈ pre, (Dict.get reg d'.type).isSome)
    (hmiss : Dict.get reg d.type = none) :
    Pipeline.load reg pname (pre ++ d :: post) = .error (.blockNotFound
      ("Block '" ++ d.type ++ "' not found")
      { block_type := d.type, available_blocks := Dict.keys reg }) ∧
    ∀ p : Pipeline V, Pipeline.load reg pname (pre ++ d :: post) ≠ .ok p := by
  have h := initializeBlocks_first_miss reg d post pre hpre hmiss
  unfold Pipeline.load
  rw [h]
  exact ⟨rfl, fun p hok => by cases hok⟩

theorem c5_block_not_found_witness :
    Pipeline.load c5registry "t"
      [{ type := "EchoBlock", config := [] },
       { type := "DoesNotExist", config := [] }] = .error (.blockNotFound
        "Block 'DoesNotExist' not found"
        { block_type := "DoesNotExist", available_blocks := ["EchoBlock"] }) ∧
    ∀ p : Pipeline Nat,
      Pipeline.load c5registry "t"
        [{ type := "EchoBlock", config := [] },
         { type := "DoesNotExist", config := [] }] ≠ .ok p :=
  c5_block_not_found c5registry "t" [{ type := "EchoBlock", config := [] }]
    { type := "DoesNotExist", config := [] } []
    (by intro d' hd'; simp only [List.mem_singleton] at hd'; subst hd'; rfl)
    rfl

/-- A block declaring the open wildcard `outputs = ["*"]` and returning an
ordinary key. -/
def wildcardBlock : Block Nat :=
  { name := "WildcardBlock", outputs := ["*"], run := fun _ => .ok [("text", 0)] }

def c6pipe : Pipeline Nat :=
  { name := "t", blocks := [{ type := "WildcardBlock", config := [] }],
    blockInstances := [wildcardBlock] }

/-- **C6 (counterexample)**: the claim says a block declaring `outputs` as
the open wildcard `"*"` is exempt from the per-step output-key check and
may return arbitrary keys.  `Pipeline._validate_output` has no wildcard
case: a block declaring `["*"]` and returning the key `"text"` raises the
`ValidationError` with `"text"` among the extra fields. -/
theorem c6_wildcard_counterexample :
    c6pipe.execute [] = .error (.validation
      "Block 'WildcardBlock' returned undeclared fields: text"
      { block_type := "WildcardBlock", declared_outputs := ["*"],
        actual_outputs := ["text"], extra_fields := ["text"] }) := rfl

/-- **C6 (amended)**: a wildcard declaration in `outputs` is not
special-cased: the subset check of `_validate_output` applies to every
block, so a block declaring `outputs = ["*"]` that returns any key other
than the literal `"*"` makes `execute` raise the `ValidationError` exactly
as any other undeclared key would. -/
theorem c6_wildcard_amended {V : Type} (p : Pipeline V) (xs : List (Block V))
    (b : Block V) (ys : List (Block V)) (initialData acc : Dict V)
    (tr : List (TraceEntry V)) (result : Dict V) (k : String)
    (hblocks : p.blockInstances = xs ++ b :: ys)
    (hw : b.outputs = ["*"])
    (hfront : executeAux xs 0 (Dict.copy initialData) = .ok (acc, tr))
    (hrun : b.run acc = .ok result)
    (hk : k ∈ Dict.keys result) (hne : k ≠ "*") :
    p.execute initialData = .error (.validation
      ("Block '" ++ b.name ++ "' returned undeclared fields: "
        ++ String.intercalate ", "
            ((Dict.keys result).filter (fun x => x ∉ (["*"] : List String))))
      { block_type := b.name, declared_outputs := ["*"],
        actual_outputs := Dict.keys result,
        extra_fields :=
          (Dict.keys result).filter (fun x => x ∉ (["*"] : List String)) }) := by
  have hded : b.outputs.dedup = ["*"] := by
    rw [hw]
    rfl
  have hbad : ¬∀ x ∈ Dict.keys result, x ∈ b.outputs.dedup := by
    intro hall
    have hmem := hall k hk
    rw [hded, List.mem_singleton] at hmem
    exact hne hmem
  have h := execute_validation_fail p xs b ys initialData acc tr result
    hblocks hfront hrun hbad
  rw [hded] at h
  exact h

theorem c6_wildcard_amended_witness :
    c6pipe.execute [] = .error (.validation
      ("Block '" ++ wildcardBlock.name ++ "' returned undeclared fields: "
        ++ String.intercalate ", "
            ((Dict.keys [("text", 0)]).filter (fun x => x ∉ (["*"] : List String))))
      { block_type := wildcardBlock.name, declared_outputs := ["*"],
        actual_outputs := Dict.keys [("text", 0)],
        extra_fields :=
          (Dict.keys [("text", 0)]).filter (fun x => x ∉ (["*"] : List String)) }) :=
  c6_wildcard_amended c6pipe [] wildcardBlock [] [] [] [] [("text", 0)] "text"
    rfl rfl rfl rfl (by decide) (by decide)

/-! ## Schema claims: concrete values and descriptors -/

/-- Concrete Python values appearing as constructor defaults in the
repository's block classes. -/
inductive PyVal where
  | pyNone
  | pyBool (b : Bool)
  | pyInt (n : Int)
  | pyStr (s : String)
deriving DecidableEq, Repr

/-- `DummyBlock` of `tests/blocks/test_base.py`:
`def __init__(self, param1: str, param2: int = 10)` with
`name = "Dummy Block"`, `description = "Test block"`,
`inputs = ["input1"]`, `outputs = ["output1"]`. -/
def dummyBlockDesc : BlockClassDesc PyVal :=
  { className := "DummyBlock", name := "Dummy Block",
    description := "Test block", inputs := ["input1"], outputs := ["output1"],
    params := [{ name := "param1", annotation := some .str, default := none },
               { name := "param2", annotation := some .int,
                 default := some (.pyInt 10) }],
    algorithm := none, paper := none, configEnums := [], fieldReferences := [] }

/-- `PersonaGeneratorBlock` of
`lib/blocks/research/persona_generator.py`: class attributes `algorithm`
and `paper` are defined; `__init__(self, num_personas: int = 2,
personality_traits: list[str] | None = None,
generate_from_metadata: bool = True)`. -/
def personaGeneratorBlockDesc : BlockClassDesc PyVal :=
  { className := "PersonaGeneratorBlock", name := "Persona Generator",
    description := "Generate conversational personas using algorithm from Li et al., 2016",
    inputs := [], outputs := ["personas", "persona_metadata"],
    params := [{ name := "num_personas", annotation := some .int,
                 default := some (.pyInt 2) },
               { name := "personality_traits",
                 annotation := some (.union [.list (some .str), .noneType]),
                 default := some .pyNone },
               { name := "generate_from_metadata", annotation := some .bool,
                 default := some (.pyBool true) }],
    algorithm := some "persona_driven_generation",
    paper := some "Li et al., 2016 - A Persona-Based Neural Conversation Model",
    configEnums := [], fieldReferences := [] }

/-- **C7 (code bug)**: the claim (and the repository's own tests,
`tests/blocks/test_base.py::test_get_schema` and `tests/test_api_blocks.py`)
say `get_schema()` returns `config_schema` produced by
`BlockConfigSchema.get_config_schema` (a `{type: "object", properties,
required}` object, `int → "integer"`) and includes `algorithm`/`paper`
when the class defines them.  Evaluating the embedded `get_schema` shows
the code instead inlines a flat per-parameter dict with `int → "number"`
and never emits `algorithm`/`paper`, while the deriver itself produces the
shape the tests expect — the code contradicts its tests. -/
theorem c7_get_schema_code_bug :
    getSchema dummyBlockDesc =
      [("type", .s "DummyBlock"), ("name", .s "Dummy Block"),
       ("description", .s "Test block"),
       ("inputs", .strList ["input1"]), ("outputs", .strList ["output1"]),
       ("config_schema", .flatConfig
         [("param1", { type := "string", required := true, default := none }),
          ("param2", { type := "number", required := false,
                       default := some (.pyInt 10) })])] ∧
    Dict.get (getSchema personaGeneratorBlockDesc) "algorithm" = none ∧
    Dict.get (getSchema personaGeneratorBlockDesc) "paper" = none ∧
    personaGeneratorBlockDesc.algorithm = some "persona_driven_generation" ∧
    personaGeneratorBlockDesc.paper =
      some "Li et al., 2016 - A Persona-Based Neural Conversation Model" ∧
    (getConfigSchema dummyBlockDesc).type = "object" ∧
    (getConfigSchema dummyBlockDesc).properties =
      [("param1", .mk "string" none none none false),
       ("param2", .mk "integer" none (some (.pyInt 10)) none false)] ∧
    (getConfigSchema dummyBlockDesc).required = ["param1"] := by
  refine ⟨rfl, rfl, rfl, rfl, rfl, rfl, ?_, rfl⟩
  simp [getConfigSchema, dummyBlockDesc, propertyFor, getPropertyDef,
    PropertyDef.withDefault]

/-! ## C8: the deriver's parameter mapping -/

theorem PropertyDef.default_withEnum {V : Type} (p : PropertyDef V)
    (vs : List V) : (p.withEnum vs).default = p.default := by
  cases p; rfl

theorem PropertyDef.default_withFieldReference {V : Type}
    (p : PropertyDef V) : p.withFieldReference.default = p.default := by
  cases p; rfl

/-- Unwrapping a union: when filtering out the `NoneType` arms leaves
`t` first, `_get_property_def` recurses on `t`. -/
theorem getPropertyDef_union {V : Type} (args : List PyType) (t : PyType)
    (rest : List PyType)
    (hfil : args.filter (fun a => !a.isNoneType) = t :: rest) :
    getPropertyDef (V := V) (.union args) = getPropertyDef t := by
  simp only [getPropertyDef]
  split
  · next t' rest' heq =>
    rw [hfil] at heq
    injection heq with h1 _
    rw [h1]
  · next heq =>
    rw [hfil] at heq
    cases heq

/-- The `type` tag of a derived property is independent of the
default/enum/field-reference decoration. -/
theorem propertyFor_type {V : Type} (cls : BlockClassDesc V) (p : PyParam V) :
    (propertyFor cls p).type =
      (getPropertyDef (V := V) (p.annotation.getD .str)).type := by
  unfold propertyFor
  cases hd : p.default <;> cases he : Dict.get cls.configEnums p.name <;>
    by_cases hf : p.name ∈ cls.fieldReferences <;> simp [hd, he, hf]

theorem propertyFor_items {V : Type} (cls : BlockClassDesc V) (p : PyParam V) :
    (propertyFor cls p).items =
      (getPropertyDef (V := V) (p.annotation.getD .str)).items := by
  unfold propertyFor
  cases hd : p.default <;> cases he : Dict.get cls.configEnums p.name <;>
    by_cases hf : p.name ∈ cls.fieldReferences <;> simp [hd, he, hf]

theorem propertyFor_default {V : Type} (cls : BlockClassDesc V)
    (p : PyParam V) (v : V) (hd : p.default = some v) :
    (propertyFor cls p).default = some v := by
  unfold propertyFor
  rw [hd]
  cases he : Dict.get cls.configEnums p.name <;>
    by_cases hf : p.name ∈ cls.fieldReferences <;>
      simp [he, hf, PropertyDef.default_withEnum,
        PropertyDef.default_withFieldReference]

/-- **C8**: for every block class and every constructor parameter, the
Config Schema Deriver maps an `int` annotation to `integer`, `float` to
`number`, `bool` to `boolean`, any other non-container type to `string`;
a union with `None` is unwrapped to its first non-`None` arm; a list
annotation yields `array` with the recursively derived item schema; a
parameter without default appears in `required`, and one with a default
carries that default verbatim (and is not required). -/
theorem c8_config_schema_deriver {V : Type} (cls : BlockClassDesc V)
    (p : PyParam V) (hnd : (cls.params.map (·.name)).Nodup)
    (hp : p ∈ cls.params) :
    ∃ prop, Dict.get (getConfigSchema cls).properties p.name = some prop ∧
      (p.annotation = some .int → prop.type = "integer") ∧
      (p.annotation = some .float → prop.type = "number") ∧
      (p.annotation = some .bool → prop.type = "boolean") ∧
      (∀ n, p.annotation = some (.other n) → prop.type = "string") ∧
      (∀ t, p.annotation = some (.list (some t)) →
        prop.type = "array" ∧ prop.items = some (getPropertyDef t)) ∧
      (∀ args t rest, p.annotation = some (.union args) →
        args.filter (fun a => !a.isNoneType) = t :: rest →
        prop.type = (getPropertyDef (V := V) t).type ∧
        prop.items = (getPropertyDef (V := V) t).items) ∧
      (p.default = none → p.name ∈ (getConfigSchema cls).required) ∧
      (∀ v, p.default = some v → prop.default = some v ∧
        p.name ∉ (getConfigSchema cls).required) := by
  refine ⟨propertyFor cls p, ?_, ?_, ?_, ?_, ?_, ?_, ?_, ?_, ?_⟩
  · show Dict.get (cls.params.map fun q => (q.name, propertyFor cls q)) p.name
      = some (propertyFor cls p)
    exact get_map_assoc (fun q => q.name) (fun q => propertyFor cls q)
      cls.params p hnd hp
  · intro h
    rw [propertyFor_type, h]
    simp [getPropertyDef, PropertyDef.type]
  · intro h
    rw [propertyFor_type, h]
    simp [getPropertyDef, PropertyDef.type]
  · intro h
    rw [propertyFor_type, h]
    simp [getPropertyDef, PropertyDef.type]
  · intro n h
    rw [propertyFor_type, h]
    simp [getPropertyDef, PropertyDef.type]
  · intro t h
    constructor
    · rw [propertyFor_type, h]
      simp [getPropertyDef, PropertyDef.type]
    · rw [propertyFor_items, h]
      simp [getPropertyDef, PropertyDef.items]
  · intro args t rest h hfil
    constructor
    · rw [propertyFor_type, h]
      simp only [Option.getD_some]
      rw [getPropertyDef_union args t rest hfil]
    · rw [propertyFor_items, h]
      simp only [Option.getD_some]
      rw [getPropertyDef_union args t rest hfil]
  · intro hd
    exact List.mem_map.mpr ⟨p, List.mem_filter.mpr ⟨hp, by simp [hd]⟩, rfl⟩
  · intro v hd
    refine ⟨propertyFor_default cls p v hd, fun hmem => ?_⟩
    obtain ⟨q, hqf, hqe⟩ := List.mem_map.mp hmem
    obtain ⟨hqmem, hqnone⟩ := List.mem_filter.mp hqf
    have hqp : q = p := List.inj_on_of_nodup_map hnd hqmem hp hqe
    rw [hqp, hd] at hqnone
    cases hqnone

/-- A concrete descriptor exercising C8's hypotheses: an `int` parameter
without default and a `str` parameter with default `"x"`. -/
def c8desc : BlockClassDesc PyVal :=
  { className := "C8Block", name := "c8", description := "d",
    inputs := [], outputs := [],
    params := [{ name := "num", annotation := some .int, default := none },
               { name := "tag", annotation := some .str,
                 default := some (.pyStr "x") }],
    algorithm := none, paper := none, configEnums := [], fieldReferences := [] }

theorem c8_config_schema_deriver_witness :
    ∃ prop, Dict.get (getConfigSchema c8desc).properties "num" = some prop ∧
      ((some PyType.int : Option PyType) = some .int → prop.type = "integer") ∧
      ((some PyType.int : Option PyType) = some .float → prop.type = "number") ∧
      ((some PyType.int : Option PyType) = some .bool → prop.type = "boolean") ∧
      (∀ n, (some PyType.int : Option PyType) = some (.other n) →
        prop.type = "string") ∧
      (∀ t, (some PyType.int : Option PyType) = some (.list (some t)) →
        prop.type = "array" ∧ prop.items = some (getPropertyDef t)) ∧
      (∀ args t rest, (some PyType.int : Option PyType) = some (.union args) →
        args.filter (fun a => !a.isNoneType) = t :: rest →
        prop.type = (getPropertyDef (V := PyVal) t).type ∧
        prop.items = (getPropertyDef (V := PyVal) t).items) ∧
      ((none : Option PyVal) = none → "num" ∈ (getConfigSchema c8desc).required) ∧
      (∀ v, (none : Option PyVal) = some v → prop.default = some v ∧
        "num" ∉ (getConfigSchema c8desc).required) :=
  c8_config_schema_deriver c8desc
    { name := "num", annotation := some .int, default := none }
    (by decide) (List.mem_cons_self ..)

/-- **C9**: `Pipeline.execute` works on a copy of the caller's initial
context — the caller's mapping keeps exactly its top-level bindings after
the call, whether the run completes or fails (first conjunct, for every
pipeline and every initial context), and all merges go to the working
copy only: the tracked run computes exactly what `Pipeline.execute`
computes (second conjunct). -/
theorem c9_caller_context_preserved {V : Type} (p : Pipeline V)
    (initialData : Dict V) :
    (p.executeTracked initialData).2 = initialData ∧
    (p.executeTracked initialData).1 = p.execute initialData := by
  unfold Pipeline.executeTracked Pipeline.execute
  rw [executeAuxTracked_spec]
  exact ⟨rfl, rfl⟩

/-- The pipeline used for refuting C10's description of the validation
detail: one block declaring `["a"]` but returning `{"a": 1, "b": 2}`. -/
def c10block : Block Nat :=
  { name := "C10Block", outputs := ["a"], run := fun _ => .ok [("a", 1), ("b", 2)] }

def c10pipe : Pipeline Nat :=
  { name := "t", blocks := [{ type := "C10Block", config := [] }],
    blockInstances := [c10block] }

/-- **C10 (counterexample)**: the claim says every failing run's error
detail contains only the block type, step information, error message and
the failing step's input snapshot.  A failing validation run's
`ValidationError` detail instead carries `declared_outputs`,
`actual_outputs` and `extra_fields` (and no step or input snapshot), so
its key set is not contained in the claimed one. -/
theorem c10_error_detail_counterexample :
    c10pipe.execute [] = .error (.validation
      "Block 'C10Block' returned undeclared fields: b"
      { block_type := "C10Block", declared_outputs := ["a"],
        actual_outputs := ["a", "b"], extra_fields := ["b"] }) ∧
    ¬∀ k ∈ PipelineError.detailKeys (V := Nat) (.validation
        "Block 'C10Block' returned undeclared fields: b"
        { block_type := "C10Block", declared_outputs := ["a"],
          actual_outputs := ["a", "b"], extra_fields := ["b"] }),
      k ∈ ["block_type", "step", "error", "input"] :=
  ⟨rfl, by decide⟩

/-- **C10 (amended)**: whenever `Pipeline.execute` fails (and no block
fabricates the engine's own `ValidationError` from inside `execute`), the
trace entries accumulated before the failure are discarded — the run
yields no trace (second conjunct) and the error's detail dict is exactly
one of the two fixed key sets: `{block_type, declared_outputs,
actual_outputs, extra_fields}` for a `ValidationError`, or `{block_type,
step, error, input}` for a `BlockExecutionError`; neither contains trace
entries. -/
theorem c10_error_detail_amended {V : Type} (p : Pipeline V)
    (initialData : Dict V) (e : PipelineError V)
    (hpure : ∀ b ∈ p.blockInstances, ∀ c m d,
      b.run c ≠ .error (.validationError m d))
    (herr : p.execute initialData = .error e) :
    (e.detailKeys = ["block_type", "declared_outputs", "actual_outputs",
        "extra_fields"] ∨
      e.detailKeys = ["block_type", "step", "error", "input"]) ∧
    ∀ finalData trace, p.execute initialData ≠ .ok (finalData, trace) := by
  refine ⟨executeAux_error_detailKeys p.blockInstances 0
    (Dict.copy initialData) e hpure herr, fun finalData trace hok => ?_⟩
  rw [herr] at hok
  cases hok

theorem c10_error_detail_amended_witness :
    ((PipelineError.validation (V := Nat)
        "Block 'C10Block' returned undeclared fields: b"
        { block_type := "C10Block", declared_outputs := ["a"],
          actual_outputs := ["a", "b"], extra_fields := ["b"] }).detailKeys
        = ["block_type", "declared_outputs", "actual_outputs", "extra_fields"] ∨
      (PipelineError.validation (V := Nat)
        "Block 'C10Block' returned undeclared fields: b"
        { block_type := "C10Block", declared_outputs := ["a"],
          actual_outputs := ["a", "b"], extra_fields := ["b"] }).detailKeys
        = ["block_type", "step", "error", "input"]) ∧
    ∀ finalData trace, c10pipe.execute [] ≠ .ok (finalData, trace) :=
  c10_error_detail_amended c10pipe [] _
    (by
      intro b hb c m d h
      simp only [c10pipe, List.mem_singleton] at hb
      subst hb
      exact Except.noConfusion h)
    rfl

end DataGenFlow
